import Mathlib

/-!
Verification of the mr-rippah playlist acquisition pipeline (src/main.rs).

The Rust program is shallowly embedded: pure helpers (URI normalisation,
format ranking, year parsing, path naming) are translated directly; all
external collaborators (Spotify catalog HTTP API, librespot session,
filesystem, ffmpeg subprocess, id3 library file write) are modelled as
function-valued fields of an `Env` record returning `Except`/`Option`
results, and every fallible pipeline function returns its result paired
with the list of observable events (log lines, subprocess invocations,
tag writes) it emits, mirroring the control flow of the source line by
line.  A Rust panic is modelled by the dedicated `RResult.panic`
constructor, and the unbounded `loop`/`while` constructs are run on
explicit fuel, `RResult.diverge` (or `Option.none`) marking fuel
exhaustion, which never occurs under the finiteness hypotheses used by
the theorems.
-/

/-- Tests whether the first list is a leading pattern of the second,
character by character; mirrors Rust `str::starts_with` on the
underlying character sequences. -/
def listLead : List Char → List Char → Bool
  | [], _ => true
  | _ :: _, [] => false
  | a :: as, b :: bs => a == b && listLead as bs

/-- String wrapper for `listLead`: does `s` start with the pattern `p`?
Mirrors Rust `str::starts_with`. -/
def strHasPre (p s : String) : Bool :=
  listLead p.data s.data

/-- Splits a character list at the first occurrence of any delimiter
character, returning the delimiter-free leading part and the remainder
(beginning with the delimiter when one was found).  Used to model the
url crate's host/path/query tokenisation. -/
def breakAtAny (delims : List Char) : List Char → List Char × List Char
  | [] => ([], [])
  | c :: cs =>
    if c ∈ delims then ([], c :: cs)
    else
      let p := breakAtAny delims cs
      (c :: p.1, p.2)

/-- Accumulator worker for `splitOnChar`. -/
def splitOnCharAux (sep : Char) : List Char → List Char → List (List Char)
  | [], acc => [acc.reverse]
  | c :: cs, acc =>
    if c = sep then acc.reverse :: splitOnCharAux sep cs []
    else splitOnCharAux sep cs (c :: acc)

/-- Splits a character list on a separator character; always returns a
nonempty list of (possibly empty) chunks, like Rust `str::split`. -/
def splitOnChar (sep : Char) (l : List Char) : List (List Char) :=
  splitOnCharAux sep l []

/-- Takes the leading characters of a list covering exactly `n` UTF-8
bytes.  Returns `none` when the list holds fewer than `n` bytes or byte
`n` falls inside a character: exactly the situations in which the Rust
byte-slice `s[0..n]` panics. -/
def takeBytes : List Char → Nat → Option (List Char)
  | _, 0 => some []
  | [], _ + 1 => none
  | c :: cs, n + 1 =>
    if c.utf8Size ≤ n + 1 then
      (takeBytes cs (n + 1 - c.utf8Size)).map (fun l => c :: l)
    else none

/-- Model of the Rust byte slice `s[0..n]` on a string: `none` is the
panic case (out of range or not a character boundary). -/
def rustSliceTo (s : String) (n : Nat) : Option String :=
  (takeBytes s.data n).map String.mk

/-- Accumulator worker for `digitsVal`. -/
def digitsValGo : List Char → Nat → Option Nat
  | [], acc => some acc
  | c :: cs, acc =>
    if c.isDigit then digitsValGo cs (acc * 10 + (c.toNat - 48))
    else none

/-- Value of a nonempty all-digit character list, `none` otherwise. -/
def digitsVal : List Char → Option Nat
  | [] => none
  | l => digitsValGo l 0

/-- Model of Rust `str::parse::<i32>`: an optional sign followed by at
least one digit, rejecting anything else and values outside the i32
range. -/
def rustParseI32 (s : String) : Option Int :=
  match s.data with
  | '+' :: rest =>
    (digitsVal rest).bind (fun n => if n ≤ 2147483647 then some (Int.ofNat n) else none)
  | '-' :: rest =>
    (digitsVal rest).bind (fun n => if n ≤ 2147483648 then some (-(Int.ofNat n)) else none)
  | rest =>
    (digitsVal rest).bind (fun n => if n ≤ 2147483647 then some (Int.ofNat n) else none)

/-- Anyhow-style `{:#}` rendering of `result.context(c)`: the context
string, a separator, then the underlying error. -/
def ctxMsg (c e : String) : String := c ++ ": " ++ e

/- ## Data model (src/main.rs lines 56-104) -/

/-- One track reference inside a playlist page (`struct PlaylistTrack`). -/
structure PlaylistTrack where
  id : Option String
deriving Repr, DecidableEq

/-- One entry of a playlist page (`struct PlaylistItem`); the track may
be absent (deleted/restricted content). -/
structure PlaylistItem where
  track : Option PlaylistTrack
deriving Repr, DecidableEq

/-- One page of the paginated playlist-tracks endpoint
(`struct PlaylistTracksResponse`). -/
structure PlaylistTracksResponse where
  items : List PlaylistItem
  next : Option String
deriving Repr, DecidableEq

/-- `struct ArtistMetadata`. -/
structure ArtistMetadata where
  name : String
deriving Repr, DecidableEq

/-- `struct ImageMetadata`. -/
structure ImageMetadata where
  url : String
deriving Repr, DecidableEq

/-- `struct ExternalIds`. -/
structure ExternalIds where
  isrc : Option String
deriving Repr, DecidableEq

/-- `struct AlbumMetadata`. -/
structure AlbumMetadata where
  name : String
  release_date : String
  images : List ImageMetadata
  artists : List ArtistMetadata
deriving Repr, DecidableEq

/-- `struct TrackMetadata`; `is_playable` is `Option Bool` exactly as in
the source (the catalog may omit the field). -/
structure TrackMetadata where
  name : String
  is_playable : Option Bool
  disc_number : Nat
  track_number : Nat
  album : AlbumMetadata
  artists : List ArtistMetadata
  external_ids : ExternalIds
deriving Repr, DecidableEq

/-- The librespot `AudioFileFormat` enumeration (all variants used by
`stream_data_rate`). -/
inductive AudioFileFormat where
  | OGG_VORBIS_96
  | OGG_VORBIS_160
  | OGG_VORBIS_320
  | MP3_256
  | MP3_320
  | MP3_160
  | MP3_96
  | MP3_160_ENC
  | AAC_24
  | AAC_48
  | AAC_160
  | AAC_320
  | MP4_128
  | OTHER5
  | FLAC_FLAC
  | XHE_AAC_12
  | XHE_AAC_16
  | XHE_AAC_24
  | FLAC_FLAC_24BIT
deriving Repr, DecidableEq

/-- `fn stream_data_rate` (src/main.rs lines 509-531). -/
def streamDataRate : AudioFileFormat → Nat
  | .OGG_VORBIS_96 => 12 * 1024
  | .OGG_VORBIS_160 => 20 * 1024
  | .OGG_VORBIS_320 => 40 * 1024
  | .MP3_256 => 32 * 1024
  | .MP3_320 => 40 * 1024
  | .MP3_160 => 20 * 1024
  | .MP3_96 => 12 * 1024
  | .MP3_160_ENC => 20 * 1024
  | .AAC_24 => 3 * 1024
  | .AAC_48 => 6 * 1024
  | .AAC_160 => 20 * 1024
  | .AAC_320 => 40 * 1024
  | .MP4_128 => 16 * 1024
  | .OTHER5 => 40 * 1024
  | .FLAC_FLAC => 112 * 1024
  | .XHE_AAC_12 => 1536
  | .XHE_AAC_16 => 2048
  | .XHE_AAC_24 => 3072
  | .FLAC_FLAC_24BIT => 3072

/-- The year written by the tag writer (src/main.rs lines 423-427):
Rust `release_date[0..4].parse::<i32>().unwrap_or_default()`.  The
byte slice itself can panic, modelled by `none`; when the slice
succeeds, a parse failure falls back to the i32 default `0`. -/
def tagYear (releaseDate : String) : Option Int :=
  (rustSliceTo releaseDate 4).map (fun s => (rustParseI32 s).getD 0)

/- ## URI resolver (src/main.rs lines 489-506) -/

/-- Parsed form of a hierarchical URL as far as
`MrRippah::normalise_playlist_uri` consumes it: the scheme, the host
(the value of `Url::domain()` for registered-name hosts) and the path
segments (the value of `Url::path_segments()`). -/
structure ParsedUrl where
  scheme : String
  host : String
  pathSegments : List String
deriving Repr, DecidableEq

/-- Host/path/query split of the part after the `scheme://` of a plain
ASCII web link: the host runs to the first `/`, `?` or `#`; the path
runs from there to the first `?` or `#`; an absent or empty path is
normalised to the single empty segment; an empty host is a parse
error.  On such links this agrees with the url crate; it performs
none of that crate's normalisations (case folding, port stripping,
backslash separators, percent-encoding, dot-segment removal), so it
is only a restricted executable instance of the resolver's parsing
collaborator, not a model of the whole of `Url::parse`. -/
def parseHier (scheme : String) (rest : List Char) : Option ParsedUrl :=
  let hp := breakAtAny ['/', '?', '#'] rest
  if hp.1 = [] then none
  else
    let pathCs := (breakAtAny ['?', '#'] hp.2).1
    let segs : List (List Char) :=
      if pathCs.head? = some '/' then splitOnChar '/' pathCs.tail else [[]]
    some ⟨scheme, String.mk hp.1, segs.map String.mk⟩

/-- A restricted executable instance of the URL-parsing collaborator
(`Url::parse`), accepting exactly the lowercase `http(s)://` links via
`parseHier`.  The url crate accepts a strictly larger language (other
special schemes such as ftp/ws/wss, case-insensitive scheme and host,
ports, backslash separators, percent-encoding), so the claim-level
theorems quantify over the parser (`normalisePlaylistUriWith`) and use
this instance only on inputs where it agrees with the WHATWG
algorithm: plain ASCII links with an alphanumeric id and an empty or
query/fragment remainder, which that algorithm leaves untouched. -/
def urlParse (input : String) : Option ParsedUrl :=
  match input.data with
  | 'h' :: 't' :: 't' :: 'p' :: 's' :: ':' :: '/' :: '/' :: rest => parseHier "https" rest
  | 'h' :: 't' :: 't' :: 'p' :: ':' :: '/' :: '/' :: rest => parseHier "http" rest
  | _ => none

/-- The canonical playlist URI leading pattern checked first by the
resolver. -/
def canonPre : String := "spotify:playlist:"

/-- The error message of the resolver's failure branch
(`anyhow::bail!("Invalid Spotify playlist URI: {input}")`). -/
def invalidUriMsg (input : String) : String :=
  "Invalid Spotify playlist URI: " ++ input

/-- `MrRippah::normalise_playlist_uri` (src/main.rs lines 489-506)
relative to its URL-parsing collaborator `Url::parse`, passed as the
`parse` argument like the other external collaborators: canonical
inputs are returned unchanged; a parsed URL whose host
(`Url::domain()`) is `open.spotify.com` and whose path has at least
two segments with the first equal to "playlist" is rewritten from its
second segment — the scheme is never examined, exactly as in the
source; everything else is an error naming the input. -/
def normalisePlaylistUriWith (parse : String → Option ParsedUrl)
    (input : String) : Except String String :=
  if strHasPre canonPre input then Except.ok input
  else
    match parse input with
    | some url =>
      if url.host = "open.spotify.com" then
        match url.pathSegments with
        | s0 :: s1 :: _ =>
          if s0 = "playlist" then Except.ok ("spotify:playlist:" ++ s1)
          else Except.error (invalidUriMsg input)
        | _ => Except.error (invalidUriMsg input)
      else Except.error (invalidUriMsg input)
    | none => Except.error (invalidUriMsg input)

/-- The resolver with the restricted executable parser instance
plugged in; used by the orchestrator embedding and the concrete
witnesses. -/
def normalisePlaylistUri (input : String) : Except String String :=
  normalisePlaylistUriWith urlParse input

/-- The web-link shape accepted by the resolver's second branch,
relative to the parser: the id it extracts when the input parses to an
`open.spotify.com` URL whose first path segment is "playlist" and
which has a second segment. -/
def webPlaylistId (parse : String → Option ParsedUrl) (input : String) : Option String :=
  match parse input with
  | some url =>
    if url.host = "open.spotify.com" then
      match url.pathSegments with
      | s0 :: s1 :: _ => if s0 = "playlist" then some s1 else none
      | _ => none
    else none
  | none => none

/-- `playlist_uri.rsplit(':').next()` (src/main.rs lines 227-230): the
substring after the last colon (the whole string when there is none);
`rsplit` always yields at least one piece, so the Rust
`.context(...)` failure branch is unreachable. -/
def playlistIdOf (uri : String) : String :=
  String.mk ((splitOnChar ':' uri.data).getLastD [])

/- ## Playlist enumerator (src/main.rs lines 257-276) -/

/-- The first page URL requested by `MrRippah::fetch_playlist_tracks`. -/
def playlistTracksUrl (playlistId : String) : String :=
  "https://api.spotify.com/v1/playlists/" ++ playlistId ++
    "/tracks?fields=next,items(track(id))&market=US"

/-- The inner `for item in payload.items` loop of
`fetch_playlist_tracks`: pushes each entry's track id onto the
accumulator when both the track and its id are present, silently
dropping the rest. -/
def collectPageIds : List PlaylistItem → List String → List String
  | [], acc => acc
  | item :: rest, acc =>
    match item.track with
    | some track =>
      match track.id with
      | some id => collectPageIds rest (acc ++ [id])
      | none => collectPageIds rest acc
    | none => collectPageIds rest acc

/-- The `while let Some(url) = next_url` loop of
`fetch_playlist_tracks`, run on fuel over the catalog API modelled as
`api : String → Except String PlaylistTracksResponse`
(`spotify_api_request`); `none` marks fuel exhaustion, an API error
aborts the whole enumeration. -/
def fetchLoop (api : String → Except String PlaylistTracksResponse) :
    Nat → Option String → List String → Option (Except String (List String))
  | _, none, acc => some (Except.ok acc)
  | 0, some _, _ => none
  | fuel + 1, some url, acc =>
    match api url with
    | Except.error e => some (Except.error e)
    | Except.ok payload => fetchLoop api fuel payload.next (collectPageIds payload.items acc)

/-- `MrRippah::fetch_playlist_tracks` (src/main.rs lines 257-276). -/
def fetchPlaylistTracks (api : String → Except String PlaylistTracksResponse)
    (playlistId : String) (fuel : Nat) : Option (Except String (List String)) :=
  fetchLoop api fuel (some (playlistTracksUrl playlistId)) []

/-- A finite chain of pages reachable from a URL: each page is what the
API returns for its URL, every page but the last points at the next
page's URL, and the last page has no next pointer. -/
def pageChain (api : String → Except String PlaylistTracksResponse) :
    String → List PlaylistTracksResponse → Prop
  | _, [] => False
  | url, [p] => api url = Except.ok p ∧ p.next = none
  | url, p :: q :: rest =>
    api url = Except.ok p ∧
      match p.next with
      | some u => pageChain api u (q :: rest)
      | none => False

/-- The track ids one page contributes, in order: entries lacking a
track or a track id are omitted. -/
def pageTrackIds (p : PlaylistTracksResponse) : List String :=
  p.items.filterMap (fun item => item.track.bind (fun t => t.id))

/- ## Unique path allocator (src/main.rs lines 466-487) -/

/-- The sibling name probed at index `i`:
`path.with_file_name(format!("{} ({i})", file_name))`.  Paths are
modelled as plain strings whose final component is nonempty (the only
use site joins the downloads directory with the playlist id), for which
replacing the file name by itself plus a suffix is appending the suffix
to the whole path. -/
def candidateName (path : String) (i : Nat) : String :=
  path ++ " (" ++ toString i ++ ")"

/-- The `for i in 1..` probing loop of `make_unique_directory`, run on
fuel over the filesystem modelled as the existence predicate `ex`;
`none` marks fuel exhaustion.  The returned candidate is created,
never an existing one. -/
def uniqueLoop (ex : String → Bool) (path : String) : Nat → Nat → Option String
  | 0, _ => none
  | fuel + 1, i =>
    if ex (candidateName path i) = false then some (candidateName path i)
    else uniqueLoop ex path fuel (i + 1)

/-- `MrRippah::make_unique_directory` (src/main.rs lines 466-487): the
path itself when it does not exist, otherwise the first free sibling
`"path (i)"` for `i = 1, 2, ...`.  Directory creation itself is the
collaborator side effect; this models which path is created and
returned. -/
def makeUniqueDirectory (ex : String → Bool) (path : String) (fuel : Nat) : Option String :=
  if ex path = false then some path
  else uniqueLoop ex path fuel 1

/- ## Result type, ID3 tag model, observable events -/

/-- Outcome of a Rust computation: a normal `Result` value (`ok` /
`error`), a panic (Rust unwinding, not caught anywhere in this
program), or fuel exhaustion of a modelled unbounded loop. -/
inductive RResult (α : Type) where
  | panic : RResult α
  | diverge : RResult α
  | error : String → RResult α
  | ok : α → RResult α
deriving Repr, DecidableEq

/-- Content of one id3 frame as built by `write_id3_tags`. -/
inductive FrameContent where
  | text : String → FrameContent
  | picture : String → String → String → List Nat → FrameContent
deriving Repr, DecidableEq

/-- One id3 frame: identifier plus content. -/
structure Id3Frame where
  id : String
  content : FrameContent
deriving Repr, DecidableEq

/-- The tag set built by `write_id3_tags` (src/main.rs lines 406-464):
the dedicated setter fields plus the extra frames appended with
`add_frame`, in order. -/
structure Id3Tag where
  title : Option String
  artist : Option String
  albumArtist : Option String
  album : Option String
  track : Option Nat
  disc : Option Nat
  year : Option Int
  frames : List Id3Frame
deriving Repr, DecidableEq

/-- Does the tag embed any picture frame (the front-cover art)? -/
def tagHasPicture (tag : Id3Tag) : Bool :=
  tag.frames.any (fun fr =>
    match fr.content with
    | FrameContent.picture _ _ _ _ => true
    | _ => false)

/-- Observable events of one playlist run: log lines, the chosen audio
encoding, the decryption-stream construction (recording which key it
got), the ffmpeg invocation, the album-art request, the tag write, the
progress-bar step and the inter-track delay. -/
inductive Event where
  | logDebug : String → Event
  | logInfo : String → Event
  | logWarn : String → Event
  | logError : String → Event
  | chooseFormat : AudioFileFormat → Event
  | decryptInit : Option Nat → Event
  | invokeFfmpeg : String → String → Event
  | httpGet : String → Event
  | writeTag : String → Id3Tag → Event
  | progressInc : Event
  | sleepDelay : Nat → Event
deriving Repr, DecidableEq

/-- Is the event the progress-bar step? -/
def Event.isProg : Event → Bool
  | Event.progressInc => true
  | _ => false

/-- Number of progress-bar steps in a trace. -/
def progressCount (evs : List Event) : Nat :=
  evs.countP Event.isProg

/- ## External collaborators -/

/-- Handle of an opened encrypted Spotify audio stream
(`librespot::audio::AudioFile`), abstract. -/
structure EncStream where
  sid : Nat
deriving Repr, DecidableEq

/-- The librespot `Track` as consumed by `download_track_audio`: the
map from encoding format to file id (`track.files.get`). -/
structure LibTrack where
  files : AudioFileFormat → Option Nat

/-- An album-art HTTP response: status code plus the outcome of reading
its body bytes (`response.bytes()` may itself fail). -/
structure HttpResponse where
  status : Nat
  body : Except String (List Nat)

/-- The external collaborators of the pipeline, one field per effectful
call site of src/main.rs: the catalog API (`spotify_api_request`), the
librespot session (id decoding, track lookup, stream opening, audio-key
request), the filesystem (temp files, directory creation, uniqueness
probing), the ffmpeg subprocess and the id3/image collaborators of the
tag writer. -/
structure Env where
  api : String → Except String PlaylistTracksResponse
  getTrackMetadata : String → Except String TrackMetadata
  base62 : String → Option Nat
  trackGet : Nat → Except String LibTrack
  audioFileOpen : Nat → Nat → Except String EncStream
  audioKeyRequest : Nat → Nat → Except String Nat
  newTempFile : Except String String
  ioCopy : Option Nat → EncStream → String → Except String Unit
  persistTemp : String → Except String String
  makeUniqDir : String → Except String String
  createParents : String → Except String Unit
  ffmpegStatus : String → String → Except String Int
  httpGetImage : String → Except String HttpResponse
  writeTagToFile : String → Id3Tag → Except String Unit

/- ## Audio acquirer (src/main.rs lines 325-360) -/

/-- The `find_map` over the ranked format array: the first format of
the list for which a file id is available, paired with that id. -/
def firstAvailable (files : AudioFileFormat → Option Nat) :
    List AudioFileFormat → Option (AudioFileFormat × Nat)
  | [] => none
  | f :: rest =>
    match files f with
    | some fid => some (f, fid)
    | none => firstAvailable files rest

/-- The fixed quality ranking of `download_track_audio` (src/main.rs
lines 331-335), highest to lowest. -/
def supportedFormats : List AudioFileFormat :=
  [AudioFileFormat.OGG_VORBIS_320, AudioFileFormat.OGG_VORBIS_160, AudioFileFormat.OGG_VORBIS_96]

/-- Format selection of `download_track_audio` (src/main.rs lines
331-338). -/
def selectAudioFormat (files : AudioFileFormat → Option Nat) :
    Option (AudioFileFormat × Nat) :=
  firstAvailable files supportedFormats

/-- The audio-key request with its graceful failure branch
(src/main.rs lines 346-352): a failed request degrades to no key and a
warning naming the track. -/
def requestKey (env : Env) (trackId : String) (sid fileId : Nat) :
    Option Nat × List Event :=
  match env.audioKeyRequest sid fileId with
  | Except.ok k => (some k, [])
  | Except.error e =>
    (none, [Event.logWarn ("Unable to load audio key for " ++ trackId ++ ": " ++ e)])

/-- `MrRippah::download_track_audio` (src/main.rs lines 325-360). -/
def downloadTrackAudio (env : Env) (trackId : String) : RResult String × List Event :=
  match env.base62 trackId with
  | none => (RResult.error "Invalid track identifier", [])
  | some sid =>
    match env.trackGet sid with
    | Except.error e => (RResult.error (ctxMsg "Unable to fetch track metadata" e), [])
    | Except.ok track =>
      match selectAudioFormat track.files with
      | none => (RResult.error "No supported audio files available for track", [])
      | some (format, fileId) =>
        match env.audioFileOpen fileId (streamDataRate format) with
        | Except.error e =>
          (RResult.error (ctxMsg "Unable to fetch Spotify audio file" e),
            [Event.chooseFormat format])
        | Except.ok enc =>
          let kp := requestKey env trackId sid fileId
          let evs := Event.chooseFormat format :: kp.2 ++ [Event.decryptInit kp.1]
          match env.newTempFile with
          | Except.error e => (RResult.error (ctxMsg "Unable to create temporary file" e), evs)
          | Except.ok temp =>
            match env.ioCopy kp.1 enc temp with
            | Except.error e => (RResult.error (ctxMsg "Unable to write audio to disk" e), evs)
            | Except.ok _ =>
              match env.persistTemp temp with
              | Except.error e =>
                (RResult.error (ctxMsg "Unable to persist downloaded audio" e), evs)
              | Except.ok path => (RResult.ok path, evs)

/- ## Transcoder invoker (src/main.rs lines 362-404) -/

/-- Rust `format!("{:02}", n)`: decimal, zero-padded to width two. -/
def pad2 (n : Nat) : String :=
  if n < 10 then "0" ++ toString n else toString n

/-- The deterministic output path of `convert_to_mp3` (src/main.rs
lines 368-380): `<dir>/<album artist>/<album>/<NN> - <name>.mp3`, the
artist defaulting to "Unknown Artist" when the album lists none. -/
def trackOutputPath (metadata : TrackMetadata) (downloadDir : String) : String :=
  let artist :=
    match metadata.album.artists with
    | a :: _ => a.name
    | [] => "Unknown Artist"
  downloadDir ++ "/" ++ artist ++ "/" ++ metadata.album.name ++ "/" ++
    pad2 metadata.track_number ++ " - " ++ metadata.name ++ ".mp3"

/-- `MrRippah::convert_to_mp3` (src/main.rs lines 362-404): create the
parent directories, invoke ffmpeg blocking, fail on a spawn error or a
non-zero exit status. -/
def convertToMp3 (env : Env) (oggPath : String) (metadata : TrackMetadata)
    (downloadDir : String) : RResult String × List Event :=
  let trackPath := trackOutputPath metadata downloadDir
  match env.createParents trackPath with
  | Except.error e =>
    (RResult.error (ctxMsg "Unable to create track directory structure" e), [])
  | Except.ok _ =>
    match env.ffmpegStatus oggPath trackPath with
    | Except.error e =>
      (RResult.error (ctxMsg "Failed to spawn ffmpeg" e),
        [Event.invokeFfmpeg oggPath trackPath])
    | Except.ok status =>
      if status = 0 then (RResult.ok trackPath, [Event.invokeFfmpeg oggPath trackPath])
      else
        (RResult.error ("ffmpeg failed with status " ++ toString status),
          [Event.invokeFfmpeg oggPath trackPath])

/- ## Tag writer (src/main.rs lines 406-464) -/

/-- The textual tag set built by `write_id3_tags` before the album-art
step (src/main.rs lines 412-438): title, first artist, first album
artist, album, track and disc numbers, the year, the optional TSRC
frame and the provenance TXXX frame. -/
def baseTag (metadata : TrackMetadata) (trackId : String) (year : Int) : Id3Tag :=
  { title := some metadata.name
    artist := (metadata.artists.head?).map ArtistMetadata.name
    albumArtist := (metadata.album.artists.head?).map ArtistMetadata.name
    album := some metadata.album.name
    track := some metadata.track_number
    disc := some metadata.disc_number
    year := some year
    frames :=
      (match metadata.external_ids.isrc with
       | some isrc => [{ id := "TSRC", content := FrameContent.text isrc }]
       | none => []) ++
      [{ id := "TXXX", content := FrameContent.text ("spotify:track:" ++ trackId) }] }

/-- Appends the front-cover APIC frame (src/main.rs lines 448-456). -/
def withPicture (tag : Id3Tag) (bytes : List Nat) : Id3Tag :=
  { tag with
    frames := tag.frames ++
      [{ id := "APIC", content := FrameContent.picture "image/jpeg" "CoverFront" "Cover" bytes }] }

/-- The final `tag.write_to_path` step (src/main.rs lines 460-461). -/
def finishWrite (env : Env) (path : String) (tag : Id3Tag) : RResult Unit × List Event :=
  match env.writeTagToFile path tag with
  | Except.error e =>
    (RResult.error (ctxMsg "Unable to write ID3 tags" e), [Event.writeTag path tag])
  | Except.ok _ => (RResult.ok (), [Event.writeTag path tag])

/-- `MrRippah::write_id3_tags` (src/main.rs lines 406-464).  The year
slice panics on a short release date (`RResult.panic`); when the album
has a cover image, a transport failure of the image request or of
reading its bytes propagates with `?`, while a non-success status
silently skips the APIC frame. -/
def writeId3Tags (env : Env) (trackPath : String) (metadata : TrackMetadata)
    (trackId : String) : RResult Unit × List Event :=
  match tagYear metadata.album.release_date with
  | none => (RResult.panic, [])
  | some year =>
    let tag0 := baseTag metadata trackId year
    match metadata.album.images with
    | [] => finishWrite env trackPath tag0
    | image :: _ =>
      match env.httpGetImage image.url with
      | Except.error e =>
        (RResult.error (ctxMsg "Unable to download album art" e), [Event.httpGet image.url])
      | Except.ok resp =>
        if 200 ≤ resp.status ∧ resp.status ≤ 299 then
          match resp.body with
          | Except.error e =>
            (RResult.error (ctxMsg "Unable to read album art bytes" e),
              [Event.httpGet image.url])
          | Except.ok bytes =>
            let r := finishWrite env trackPath (withPicture tag0 bytes)
            (r.1, Event.httpGet image.url :: r.2)
        else
          let r := finishWrite env trackPath tag0
          (r.1, Event.httpGet image.url :: r.2)

/- ## Pipeline orchestrator (src/main.rs lines 225-290) -/

/-- `MrRippah::rip_track` (src/main.rs lines 278-290): fetch metadata,
skip when `is_playable` is explicitly false, otherwise acquire,
transcode and tag in sequence, any stage failure aborting only this
track. -/
def ripTrack (env : Env) (trackId : String) (downloadDir : String) :
    RResult Unit × List Event :=
  match env.getTrackMetadata trackId with
  | Except.error e => (RResult.error e, [])
  | Except.ok metadata =>
    if metadata.is_playable = some false then
      (RResult.ok (), [Event.logDebug (trackId ++ " SKIPPING! Track not playable")])
    else
      match downloadTrackAudio env trackId with
      | (RResult.ok audioFile, ev1) =>
        match convertToMp3 env audioFile metadata downloadDir with
        | (RResult.ok mp3Path, ev2) =>
          match writeId3Tags env mp3Path metadata trackId with
          | (r, ev3) => (r, ev1 ++ ev2 ++ ev3)
        | (RResult.error e, ev2) => (RResult.error e, ev1 ++ ev2)
        | (RResult.panic, ev2) => (RResult.panic, ev1 ++ ev2)
        | (RResult.diverge, ev2) => (RResult.diverge, ev1 ++ ev2)
      | (RResult.error e, ev1) => (RResult.error e, ev1)
      | (RResult.panic, ev1) => (RResult.panic, ev1)
      | (RResult.diverge, ev1) => (RResult.diverge, ev1)

/-- The per-track loop of `rip_playlist` (src/main.rs lines 244-251):
an error from `rip_track` is logged with the track id and the loop
continues; after every track the progress bar advances and the fixed
delay is observed.  A panic unwinds out of the loop. -/
def ripLoop (env : Env) (downloadDir : String) : List String → RResult Unit × List Event
  | [] => (RResult.ok (), [])
  | trackId :: rest =>
    match ripTrack env trackId downloadDir with
    | (RResult.panic, evs) => (RResult.panic, evs)
    | (r, evs) =>
      let logEvs :=
        match r with
        | RResult.error e =>
          [Event.logError ("Failed to rip track " ++ trackId ++ ": " ++ e)]
        | _ => []
      let tail := ripLoop env downloadDir rest
      (tail.1,
        evs ++ logEvs ++
          Event.progressInc ::
          Event.logDebug "Waiting 5 seconds to start next download" ::
          Event.sleepDelay 5 :: tail.2)

/-- `MrRippah::rip_playlist` (src/main.rs lines 225-255): normalise the
URI, allocate the download directory, enumerate the playlist, then run
the per-track loop; the three setup steps are the only failure points
of the run itself. -/
def ripPlaylist (env : Env) (downloadsDir : String) (fuel : Nat)
    (playlistUri : String) : RResult Unit × List Event :=
  match normalisePlaylistUri playlistUri with
  | Except.error e => (RResult.error e, [])
  | Except.ok uri =>
    let playlistId := playlistIdOf uri
    match env.makeUniqDir (downloadsDir ++ "/" ++ playlistId) with
    | Except.error e => (RResult.error e, [])
    | Except.ok downloadDir =>
      let infoEv := Event.logInfo ("Ripping " ++ uri ++ " to " ++ downloadDir)
      match fetchPlaylistTracks env.api playlistId fuel with
      | none => (RResult.diverge, [infoEv])
      | some (Except.error e) => (RResult.error e, [infoEv])
      | some (Except.ok trackIds) =>
        let body := ripLoop env downloadDir trackIds
        (body.1, infoEv :: body.2)

/- ## Concrete fixtures used by closed theorems and witnesses -/

/-- A fully stubbed collaborator record: every filesystem and tagging
step succeeds, every network step fails; individual fixtures override
single fields. -/
def plainEnv : Env :=
  { api := fun _ => Except.error "no api"
    getTrackMetadata := fun _ => Except.error "no metadata"
    base62 := fun _ => none
    trackGet := fun _ => Except.error "no track"
    audioFileOpen := fun _ _ => Except.error "no stream"
    audioKeyRequest := fun _ _ => Except.error "no key"
    newTempFile := Except.ok "/tmp/audio"
    ioCopy := fun _ _ _ => Except.ok ()
    persistTemp := fun p => Except.ok p
    makeUniqDir := fun p => Except.ok p
    createParents := fun _ => Except.ok ()
    ffmpegStatus := fun _ _ => Except.ok 0
    httpGetImage := fun _ => Except.error "no image"
    writeTagToFile := fun _ _ => Except.ok () }

/-- The spec's tag-writer example metadata: name "Song", track 3, disc
1, release date "1999-07-01", artist "A", album "Alb" by "AA", no
cover image. -/
def mdSong : TrackMetadata :=
  { name := "Song"
    is_playable := none
    disc_number := 1
    track_number := 3
    album :=
      { name := "Alb"
        release_date := "1999-07-01"
        images := []
        artists := [{ name := "AA" }] }
    artists := [{ name := "A" }]
    external_ids := { isrc := none } }

/-- `mdSong` with a two-byte release date, the input on which the
year slice panics. -/
def mdShortDate : TrackMetadata :=
  { mdSong with album := { mdSong.album with release_date := "99" } }

/-- `mdSong` with one cover image reference. -/
def mdWithImage : TrackMetadata :=
  { mdSong with album := { mdSong.album with images := [{ url := "https://img.example/c.jpg" }] } }

/- ## Claim C3 -/

/-- Claim C3 (code-bug evidence): the year is parsed from the first
four bytes of the release date with parse failure yielding the default
year 0, but the byte slice `release_date[0..4]` itself panics when the
release-date string is shorter than four bytes, so the tag-writing
operation is not panic-free in the string's length: on release date
"99" the whole tag write panics before doing anything. -/
theorem write_id3_tags_release_date_panic :
    tagYear "99" = none ∧
    writeId3Tags plainEnv "/out/t.mp3" mdShortDate "tid" = (RResult.panic, []) ∧
    tagYear "abcd-07" = some 0 ∧
    tagYear "1999-07-01" = some 1999 :=
  ⟨rfl, rfl, rfl, rfl⟩

/- ## Claim C5 -/

/-- Claim C5: the audio acquirer picks the first available encoding in
the fixed ranking OGG_VORBIS_320, then 160, then 96 — a lower tier is
chosen only when every higher tier is absent — and when none of the
three recognised tiers is available the track fails with the
no-audio-source error. -/
theorem download_track_audio_format_ranking :
    (∀ files : AudioFileFormat → Option Nat, ∀ fid,
      files AudioFileFormat.OGG_VORBIS_320 = some fid →
      selectAudioFormat files = some (AudioFileFormat.OGG_VORBIS_320, fid)) ∧
    (∀ files : AudioFileFormat → Option Nat, ∀ fid,
      files AudioFileFormat.OGG_VORBIS_320 = none →
      files AudioFileFormat.OGG_VORBIS_160 = some fid →
      selectAudioFormat files = some (AudioFileFormat.OGG_VORBIS_160, fid)) ∧
    (∀ files : AudioFileFormat → Option Nat, ∀ fid,
      files AudioFileFormat.OGG_VORBIS_320 = none →
      files AudioFileFormat.OGG_VORBIS_160 = none →
      files AudioFileFormat.OGG_VORBIS_96 = some fid →
      selectAudioFormat files = some (AudioFileFormat.OGG_VORBIS_96, fid)) ∧
    (∀ env : Env, ∀ tid : String, ∀ sid : Nat, ∀ track : LibTrack,
      env.base62 tid = some sid →
      env.trackGet sid = Except.ok track →
      track.files AudioFileFormat.OGG_VORBIS_320 = none →
      track.files AudioFileFormat.OGG_VORBIS_160 = none →
      track.files AudioFileFormat.OGG_VORBIS_96 = none →
      downloadTrackAudio env tid =
        (RResult.error "No supported audio files available for track", [])) := by
  refine ⟨?_, ?_, ?_, ?_⟩
  · intro files fid h320
    simp [selectAudioFormat, firstAvailable, supportedFormats, h320]
  · intro files fid h320 h160
    simp [selectAudioFormat, firstAvailable, supportedFormats, h320, h160]
  · intro files fid h320 h160 h96
    simp [selectAudioFormat, firstAvailable, supportedFormats, h320, h160, h96]
  · intro env tid sid track hsid htrack h320 h160 h96
    simp [downloadTrackAudio, hsid, htrack, selectAudioFormat, firstAvailable,
      supportedFormats, h320, h160, h96]

/-- A file-id map offering only the 160 kbit/s tier. -/
def wFiles160 : AudioFileFormat → Option Nat :=
  fun f => if f = AudioFileFormat.OGG_VORBIS_160 then some 7 else none

/-- A librespot session fixture whose track offers no recognised tier. -/
def wEnvNoFiles : Env :=
  { plainEnv with
    base62 := fun _ => some 1
    trackGet := fun _ => Except.ok { files := fun _ => none } }

/-- Witness for C5 at concrete inputs: with only the 160 tier present
the 160 tier is selected, and with no tier present the download fails
with the no-audio-source error. -/
theorem download_track_audio_format_ranking_witness :
    selectAudioFormat wFiles160 = some (AudioFileFormat.OGG_VORBIS_160, 7) ∧
    downloadTrackAudio wEnvNoFiles "tid" =
      (RResult.error "No supported audio files available for track", []) :=
  ⟨download_track_audio_format_ranking.2.1 wFiles160 7 (by decide) (by decide),
   download_track_audio_format_ranking.2.2.2 wEnvNoFiles "tid" 1
     { files := fun _ => none } rfl rfl rfl rfl rfl⟩

/- ## Claim C9 -/

/-- Claim C9: when the audio-key request fails, the download does not
abort — the stream is decrypted with no key, written and persisted as
usual — and the failure is logged as a warning naming the track. -/
theorem download_track_audio_key_failure_tolerated :
    ∀ env : Env, ∀ tid : String, ∀ sid fid : Nat, ∀ track : LibTrack,
    ∀ f : AudioFileFormat, ∀ enc : EncStream, ∀ e temp p : String,
    env.base62 tid = some sid →
    env.trackGet sid = Except.ok track →
    selectAudioFormat track.files = some (f, fid) →
    env.audioFileOpen fid (streamDataRate f) = Except.ok enc →
    env.audioKeyRequest sid fid = Except.error e →
    env.newTempFile = Except.ok temp →
    env.ioCopy none enc temp = Except.ok () →
    env.persistTemp temp = Except.ok p →
    downloadTrackAudio env tid =
      (RResult.ok p,
        [Event.chooseFormat f,
         Event.logWarn ("Unable to load audio key for " ++ tid ++ ": " ++ e),
         Event.decryptInit none]) := by
  intro env tid sid fid track f enc e temp p hsid htrack hsel hopen hkey htemp hcopy hpersist
  simp [downloadTrackAudio, requestKey, hsid, htrack, hsel, hopen, hkey, htemp, hcopy, hpersist]

/-- A session fixture on which everything succeeds except the
audio-key request. -/
def wEnvKeyFail : Env :=
  { plainEnv with
    base62 := fun _ => some 4
    trackGet := fun _ =>
      Except.ok { files := fun f => if f = AudioFileFormat.OGG_VORBIS_320 then some 9 else none }
    audioFileOpen := fun _ _ => Except.ok { sid := 4 }
    audioKeyRequest := fun _ _ => Except.error "channel closed" }

/-- Witness for C9: on `wEnvKeyFail` the download of track "tid"
succeeds with no key and logs the warning. -/
theorem download_track_audio_key_failure_tolerated_witness :
    downloadTrackAudio wEnvKeyFail "tid" =
      (RResult.ok "/tmp/audio",
        [Event.chooseFormat AudioFileFormat.OGG_VORBIS_320,
         Event.logWarn "Unable to load audio key for tid: channel closed",
         Event.decryptInit none]) :=
  download_track_audio_key_failure_tolerated wEnvKeyFail "tid" 4 9
    { files := fun f => if f = AudioFileFormat.OGG_VORBIS_320 then some 9 else none }
    AudioFileFormat.OGG_VORBIS_320 { sid := 4 } "channel closed" "/tmp/audio" "/tmp/audio"
    rfl rfl (by decide) rfl rfl rfl rfl rfl

/- ## Claim C6 -/

/-- Claim C6: a track whose fetched metadata reports `is_playable`
explicitly false is skipped: the result is success, the only trace
entry is the debug skip line, and in particular no encoding is chosen,
no ffmpeg invocation happens, no tag is written and nothing is logged
as an error. -/
theorem rip_track_unplayable_skip :
    ∀ env : Env, ∀ tid dir : String, ∀ md : TrackMetadata,
    env.getTrackMetadata tid = Except.ok md →
    md.is_playable = some false →
    ripTrack env tid dir =
      (RResult.ok (), [Event.logDebug (tid ++ " SKIPPING! Track not playable")]) ∧
    (∀ i o, Event.invokeFfmpeg i o ∉ (ripTrack env tid dir).2) ∧
    (∀ f, Event.chooseFormat f ∉ (ripTrack env tid dir).2) ∧
    (∀ p tg, Event.writeTag p tg ∉ (ripTrack env tid dir).2) ∧
    (∀ m, Event.logError m ∉ (ripTrack env tid dir).2) := by
  intro env tid dir md hmd hflag
  have hmain : ripTrack env tid dir =
      (RResult.ok (), [Event.logDebug (tid ++ " SKIPPING! Track not playable")]) := by
    simp [ripTrack, hmd, hflag]
  refine ⟨hmain, ?_, ?_, ?_, ?_⟩
  · intro i o
    rw [hmain]
    simp
  · intro f
    rw [hmain]
    simp
  · intro p tg
    rw [hmain]
    simp
  · intro m
    rw [hmain]
    simp

/-- A catalog fixture returning unplayable metadata for every track. -/
def wEnvUnplayable : Env :=
  { plainEnv with
    getTrackMetadata := fun _ => Except.ok { mdSong with is_playable := some false } }

/-- Witness for C6: on `wEnvUnplayable` ripping track "t1" succeeds
with only the skip line in the trace. -/
theorem rip_track_unplayable_skip_witness :
    ripTrack wEnvUnplayable "t1" "/dl" =
      (RResult.ok (), [Event.logDebug "t1 SKIPPING! Track not playable"]) :=
  (rip_track_unplayable_skip wEnvUnplayable "t1" "/dl"
    { mdSong with is_playable := some false } rfl rfl).1

/- ## Claim C2 -/

/-- Claim C2 (amended): when the first album-art request comes back
with a non-success HTTP status, the tag writer still writes the full
textual tag set without any embedded picture and the track succeeds;
a transport failure of the request is NOT tolerated (see the
counterexample). -/
theorem write_id3_tags_art_status_tolerated :
    ∀ env : Env, ∀ path tid : String, ∀ md : TrackMetadata,
    ∀ img : ImageMetadata, ∀ rest : List ImageMetadata,
    ∀ resp : HttpResponse, ∀ y : Int,
    md.album.images = img :: rest →
    tagYear md.album.release_date = some y →
    env.httpGetImage img.url = Except.ok resp →
    ¬(200 ≤ resp.status ∧ resp.status ≤ 299) →
    env.writeTagToFile path (baseTag md tid y) = Except.ok () →
    writeId3Tags env path md tid =
      (RResult.ok (), [Event.httpGet img.url, Event.writeTag path (baseTag md tid y)]) ∧
    tagHasPicture (baseTag md tid y) = false := by
  intro env path tid md img rest resp y himg hyear hresp hstatus hwrite
  constructor
  · simp [writeId3Tags, himg, hyear, hresp, hstatus, finishWrite, hwrite]
  · cases hisrc : md.external_ids.isrc <;>
      simp [baseTag, tagHasPicture, hisrc]

/-- An album-art collaborator answering every image request with an
empty 404 response. -/
def wEnvArt404 : Env :=
  { plainEnv with
    httpGetImage := fun _ => Except.ok { status := 404, body := Except.ok [] } }

/-- Witness for the amended C2: a 404 album-art response leaves the
track successfully tagged without a picture. -/
theorem write_id3_tags_art_status_tolerated_witness :
    writeId3Tags wEnvArt404 "/out/t.mp3" mdWithImage "tid" =
      (RResult.ok (),
        [Event.httpGet "https://img.example/c.jpg",
         Event.writeTag "/out/t.mp3" (baseTag mdWithImage "tid" 1999)]) ∧
    tagHasPicture (baseTag mdWithImage "tid" 1999) = false :=
  write_id3_tags_art_status_tolerated wEnvArt404 "/out/t.mp3" "tid" mdWithImage
    { url := "https://img.example/c.jpg" } [] { status := 404, body := Except.ok [] } 1999
    rfl rfl rfl (by decide) rfl

/-- An album-art collaborator whose image request fails at the
transport level. -/
def cexArtEnv : Env :=
  { plainEnv with httpGetImage := fun _ => Except.error "connection refused" }

/-- Counterexample to C2 as stated: a transport failure of the
album-art request is not tolerated — `write_id3_tags` propagates it
with `?`, so the track fails instead of being tagged without art. -/
theorem write_id3_tags_transport_failure_cex :
    writeId3Tags cexArtEnv "/out/t.mp3" mdWithImage "tid" =
      (RResult.error "Unable to download album art: connection refused",
        [Event.httpGet "https://img.example/c.jpg"]) ∧
    (writeId3Tags cexArtEnv "/out/t.mp3" mdWithImage "tid").1 ≠ RResult.ok () :=
  ⟨rfl, by decide⟩

/- ## Claim C10 -/

/-- A successful transcode's output path and trace: the output is the
deterministic metadata-derived path and the trace is exactly the one
ffmpeg invocation. -/
theorem convertToMp3_ok_shape :
    ∀ env : Env, ∀ a d p : String, ∀ md : TrackMetadata, ∀ evs : List Event,
    convertToMp3 env a md d = (RResult.ok p, evs) →
    p = trackOutputPath md d ∧ evs = [Event.invokeFfmpeg a p] := by
  intro env a d p md evs h
  cases hc : env.createParents (trackOutputPath md d) with
  | error e => simp [convertToMp3, hc] at h
  | ok u =>
    cases hf : env.ffmpegStatus a (trackOutputPath md d) with
    | error e => simp [convertToMp3, hc, hf] at h
    | ok status =>
      by_cases hs : status = 0
      · simp [convertToMp3, hc, hf, hs] at h
        obtain ⟨h1, h2⟩ := h
        subst h1
        exact ⟨rfl, h2.symm⟩
      · simp [convertToMp3, hc, hf, hs] at h

/-- A successful tag write leaves a tag-write event for the file in
the trace. -/
theorem writeId3Tags_ok_event :
    ∀ env : Env, ∀ path tid : String, ∀ md : TrackMetadata,
    ∀ u : Unit, ∀ evs : List Event,
    writeId3Tags env path md tid = (RResult.ok u, evs) →
    ∃ tg, Event.writeTag path tg ∈ evs := by
  intro env path tid md u evs h
  cases hy : tagYear md.album.release_date with
  | none => simp [writeId3Tags, hy] at h
  | some y =>
    cases himg : md.album.images with
    | nil =>
      cases hw : env.writeTagToFile path (baseTag md tid y) with
      | error e => simp [writeId3Tags, hy, himg, finishWrite, hw] at h
      | ok v =>
        simp [writeId3Tags, hy, himg, finishWrite, hw] at h
        exact ⟨baseTag md tid y, by rw [← h]; simp⟩
    | cons img rest =>
      cases hr : env.httpGetImage img.url with
      | error e => simp [writeId3Tags, hy, himg, hr] at h
      | ok resp =>
        by_cases hst : 200 ≤ resp.status ∧ resp.status ≤ 299
        · cases hb : resp.body with
          | error e => simp [writeId3Tags, hy, himg, hr, hst, hb] at h
          | ok bytes =>
            cases hw : env.writeTagToFile path (withPicture (baseTag md tid y) bytes) with
            | error e => simp [writeId3Tags, hy, himg, hr, hst, hb, finishWrite, hw] at h
            | ok v =>
              simp [writeId3Tags, hy, himg, hr, hst, hb, finishWrite, hw] at h
              exact ⟨withPicture (baseTag md tid y) bytes, by rw [← h]; simp⟩
        · cases hw : env.writeTagToFile path (baseTag md tid y) with
          | error e => simp [writeId3Tags, hy, himg, hr, hst, finishWrite, hw] at h
          | ok v =>
            simp [writeId3Tags, hy, himg, hr, hst, finishWrite, hw] at h
            exact ⟨baseTag md tid y, by rw [← h]; simp⟩

/-- A successful audio download records the chosen encoding in the
trace. -/
theorem downloadTrackAudio_ok_event :
    ∀ env : Env, ∀ tid p : String, ∀ evs : List Event,
    downloadTrackAudio env tid = (RResult.ok p, evs) →
    ∃ f, Event.chooseFormat f ∈ evs := by
  intro env tid p evs h
  cases hb : env.base62 tid with
  | none => simp [downloadTrackAudio, hb] at h
  | some sid =>
    cases ht : env.trackGet sid with
    | error e => simp [downloadTrackAudio, hb, ht] at h
    | ok track =>
      cases hsel : selectAudioFormat track.files with
      | none => simp [downloadTrackAudio, hb, ht, hsel] at h
      | some pr =>
        obtain ⟨f, fid⟩ := pr
        cases ho : env.audioFileOpen fid (streamDataRate f) with
        | error e => simp [downloadTrackAudio, hb, ht, hsel, ho] at h
        | ok enc =>
          cases htf : env.newTempFile with
          | error e => simp [downloadTrackAudio, hb, ht, hsel, ho, htf] at h
          | ok temp =>
            cases hcp : env.ioCopy (requestKey env tid sid fid).1 enc temp with
            | error e => simp [downloadTrackAudio, hb, ht, hsel, ho, htf, hcp] at h
            | ok v =>
              cases hps : env.persistTemp temp with
              | error e => simp [downloadTrackAudio, hb, ht, hsel, ho, htf, hcp, hps] at h
              | ok path =>
                simp [downloadTrackAudio, hb, ht, hsel, ho, htf, hcp, hps] at h
                exact ⟨f, by rw [← h.2]; simp⟩

/-- Claim C10: a track whose metadata omits `is_playable` entirely is
treated as playable and runs the full pipeline — when the three stages
succeed, the track succeeds and its trace shows the chosen encoding,
the ffmpeg invocation producing the output file and the tag write. -/
theorem rip_track_missing_playable_flag_processed :
    ∀ env : Env, ∀ tid dir audio mp3 : String, ∀ md : TrackMetadata,
    ∀ ev1 ev2 ev3 : List Event,
    env.getTrackMetadata tid = Except.ok md →
    md.is_playable = none →
    downloadTrackAudio env tid = (RResult.ok audio, ev1) →
    convertToMp3 env audio md dir = (RResult.ok mp3, ev2) →
    writeId3Tags env mp3 md tid = (RResult.ok (), ev3) →
    ripTrack env tid dir = (RResult.ok (), ev1 ++ ev2 ++ ev3) ∧
    (∃ f, Event.chooseFormat f ∈ ev1) ∧
    ev2 = [Event.invokeFfmpeg audio mp3] ∧
    (∃ tg, Event.writeTag mp3 tg ∈ ev3) := by
  intro env tid dir audio mp3 md ev1 ev2 ev3 hmd hflag hdl hcv htg
  refine ⟨?_, ?_, ?_, ?_⟩
  · simp [ripTrack, hmd, hflag, hdl, hcv, htg]
  · exact downloadTrackAudio_ok_event env tid audio ev1 hdl
  · exact (convertToMp3_ok_shape env audio dir mp3 md ev2 hcv).2
  · exact writeId3Tags_ok_event env mp3 tid md () ev3 htg

/-- A fully successful session for one playable track "t7": metadata
without the `is_playable` field, a 320-tier file, a working key. -/
def wEnvFull : Env :=
  { plainEnv with
    getTrackMetadata := fun _ => Except.ok mdSong
    base62 := fun _ => some 4
    trackGet := fun _ =>
      Except.ok { files := fun f => if f = AudioFileFormat.OGG_VORBIS_320 then some 9 else none }
    audioFileOpen := fun _ _ => Except.ok { sid := 4 }
    audioKeyRequest := fun _ _ => Except.ok 77 }

/-- Witness for C10: on `wEnvFull`, track "t7" (metadata without the
playability flag) is fully processed and succeeds. -/
theorem rip_track_missing_playable_flag_processed_witness :
    ripTrack wEnvFull "t7" "/dl" =
      (RResult.ok (),
        ([Event.chooseFormat AudioFileFormat.OGG_VORBIS_320, Event.decryptInit (some 77)] ++
         [Event.invokeFfmpeg "/tmp/audio" (trackOutputPath mdSong "/dl")] ++
         [Event.writeTag (trackOutputPath mdSong "/dl") (baseTag mdSong "t7" 1999)])) :=
  (rip_track_missing_playable_flag_processed wEnvFull "t7" "/dl" "/tmp/audio"
    (trackOutputPath mdSong "/dl") mdSong
    [Event.chooseFormat AudioFileFormat.OGG_VORBIS_320, Event.decryptInit (some 77)]
    [Event.invokeFfmpeg "/tmp/audio" (trackOutputPath mdSong "/dl")]
    [Event.writeTag (trackOutputPath mdSong "/dl") (baseTag mdSong "t7" 1999)]
    rfl rfl (by decide) (by decide) (by decide)).1

/- ## Claim C7 -/

/-- The probing loop only ever answers a name that does not yet
exist. -/
theorem uniqueLoop_fresh :
    ∀ ex : String → Bool, ∀ path : String, ∀ fuel i : Nat, ∀ r : String,
    uniqueLoop ex path fuel i = some r → ex r = false := by
  intro ex path fuel
  induction fuel with
  | zero => intro i r h; simp [uniqueLoop] at h
  | succ f ih =>
    intro i r h
    by_cases hc : ex (candidateName path i) = false
    · simp [uniqueLoop, hc] at h
      rw [← h]
      exact hc
    · simp [uniqueLoop, hc] at h
      exact ih (i + 1) r h

/-- When the candidates `i, i+1, ..., i+d-1` all exist and `i+d` is
free, the probing loop started at `i` with more than `d` fuel answers
candidate `i+d`. -/
theorem uniqueLoop_finds :
    ∀ ex : String → Bool, ∀ path : String, ∀ d i fuel : Nat,
    (∀ j, i ≤ j → j < i + d → ex (candidateName path j) = true) →
    ex (candidateName path (i + d)) = false →
    d < fuel →
    uniqueLoop ex path fuel i = some (candidateName path (i + d)) := by
  intro ex path d
  induction d with
  | zero =>
    intro i fuel hall hfree hfuel
    obtain ⟨f, rfl⟩ : ∃ f, fuel = f + 1 := ⟨fuel - 1, by omega⟩
    have hfree' : ex (candidateName path i) = false := by simpa using hfree
    simp [uniqueLoop, hfree']
  | succ d ih =>
    intro i fuel hall hfree hfuel
    obtain ⟨f, rfl⟩ : ∃ f, fuel = f + 1 := ⟨fuel - 1, by omega⟩
    have hi : ex (candidateName path i) = true := hall i (Nat.le_refl i) (by omega)
    have step : uniqueLoop ex path (f + 1) i = uniqueLoop ex path f (i + 1) := by
      simp [uniqueLoop, hi]
    rw [step]
    have := ih (i + 1) f
      (fun j h1 h2 => hall j (by omega) (by omega))
      (by have : i + 1 + d = i + (d + 1) := by omega
          rw [this]; exact hfree)
      (by omega)
    rw [this]
    have : i + 1 + d = i + (d + 1) := by omega
    rw [this]

/-- Claim C7: a non-existing target path is returned as-is; when the
path and the siblings `(1) ... (N-1)` all exist and `(N)` is free, the
allocator returns exactly `"path (N)"`; and whatever it returns never
existed before, so no existing directory is overwritten. -/
theorem make_unique_directory_spec :
    (∀ ex : String → Bool, ∀ path : String, ∀ fuel : Nat,
      ex path = false → makeUniqueDirectory ex path fuel = some path) ∧
    (∀ ex : String → Bool, ∀ path : String, ∀ N fuel : Nat,
      1 ≤ N → N ≤ fuel →
      ex path = true →
      (∀ i, 1 ≤ i → i < N → ex (candidateName path i) = true) →
      ex (candidateName path N) = false →
      makeUniqueDirectory ex path fuel = some (candidateName path N)) ∧
    (∀ ex : String → Bool, ∀ path : String, ∀ fuel : Nat, ∀ r : String,
      makeUniqueDirectory ex path fuel = some r → ex r = false) := by
  refine ⟨?_, ?_, ?_⟩
  · intro ex path fuel h
    simp [makeUniqueDirectory, h]
  · intro ex path N fuel hN hfuel hex hall hfree
    have h1 : makeUniqueDirectory ex path fuel = uniqueLoop ex path fuel 1 := by
      simp [makeUniqueDirectory, hex]
    rw [h1]
    have hd : 1 + (N - 1) = N := by omega
    have := uniqueLoop_finds ex path (N - 1) 1 fuel
      (fun j hj1 hj2 => hall j hj1 (by omega))
      (by rw [hd]; exact hfree)
      (by omega)
    rw [this, hd]
  · intro ex path fuel r h
    by_cases hex : ex path = false
    · simp [makeUniqueDirectory, hex] at h
      rw [← h]
      exact hex
    · simp [makeUniqueDirectory, hex] at h
      exact uniqueLoop_fresh ex path fuel 1 r h

/-- A filesystem on which `base`, `base (1)` and `base (2)` already
exist. -/
def wExBase : String → Bool :=
  fun p => ["base", "base (1)", "base (2)"].contains p

/-- Witness for C7: with `base`, `base (1)`, `base (2)` taken, the
allocator answers `base (3)`; a fresh path is returned unchanged; the
answered sibling did not exist before. -/
theorem make_unique_directory_spec_witness :
    makeUniqueDirectory wExBase "base" 10 = some "base (3)" ∧
    makeUniqueDirectory wExBase "fresh" 10 = some "fresh" ∧
    wExBase "base (3)" = false := by
  have h2 := make_unique_directory_spec.2.1 wExBase "base" 3 10 (by decide) (by decide)
    (by decide)
    (by intro i h1 h2; interval_cases i <;> decide)
    (by decide)
  refine ⟨h2, make_unique_directory_spec.1 wExBase "fresh" 10 (by decide), ?_⟩
  exact make_unique_directory_spec.2.2 wExBase "base" 10 "base (3)" h2

/- ## Claim C4 -/

/-- Running the page-collection loop on an accumulator prepends the
accumulator. -/
theorem collectPageIds_acc :
    ∀ items : List PlaylistItem, ∀ acc : List String,
    collectPageIds items acc = acc ++ collectPageIds items [] := by
  intro items
  induction items with
  | nil => intro acc; simp [collectPageIds]
  | cons it rest ih =>
    intro acc
    cases ht : it.track with
    | none => simp [collectPageIds, ht, ih acc]
    | some tr =>
      cases hid : tr.id with
      | none => simp [collectPageIds, ht, hid, ih acc]
      | some id =>
        calc collectPageIds (it :: rest) acc
            = collectPageIds rest (acc ++ [id]) := by simp [collectPageIds, ht, hid]
          _ = (acc ++ [id]) ++ collectPageIds rest [] := ih (acc ++ [id])
          _ = acc ++ ([id] ++ collectPageIds rest []) := by rw [List.append_assoc]
          _ = acc ++ collectPageIds rest [id] := by rw [← ih [id]]
          _ = acc ++ collectPageIds (it :: rest) [] := by simp [collectPageIds, ht, hid]

/-- The page-collection loop computes exactly the page's non-null
track ids in order. -/
theorem collectPageIds_eq :
    ∀ items : List PlaylistItem,
    collectPageIds items [] =
      items.filterMap (fun item => item.track.bind (fun t => t.id)) := by
  intro items
  induction items with
  | nil => simp [collectPageIds]
  | cons it rest ih =>
    cases ht : it.track with
    | none => simp [collectPageIds, ht, ih]
    | some tr =>
      cases hid : tr.id with
      | none => simp [collectPageIds, ht, hid, ih]
      | some id =>
        calc collectPageIds (it :: rest) []
            = collectPageIds rest [id] := by simp [collectPageIds, ht, hid]
          _ = [id] ++ collectPageIds rest [] := collectPageIds_acc rest [id]
          _ = id :: (rest.filterMap (fun item => item.track.bind (fun t => t.id))) := by
              rw [ih]; rfl
          _ = (it :: rest).filterMap (fun item => item.track.bind (fun t => t.id)) := by
              simp [List.filterMap_cons, ht, hid]

/-- Running the enumeration loop along a finite page chain with enough
fuel terminates at the chain's last page (the one with no next
pointer) and appends every page's non-null track ids in page order. -/
theorem fetchLoop_chain :
    ∀ api : String → Except String PlaylistTracksResponse,
    ∀ pages : List PlaylistTracksResponse, ∀ url : String,
    ∀ acc : List String, ∀ fuel : Nat,
    pageChain api url pages → pages.length ≤ fuel →
    fetchLoop api fuel (some url) acc =
      some (Except.ok (acc ++ (pages.map pageTrackIds).flatten)) := by
  intro api pages
  induction pages with
  | nil => intro url acc fuel hchain; exact absurd hchain (by simp [pageChain])
  | cons p rest ih =>
    intro url acc fuel hchain hfuel
    have hlen : rest.length + 1 ≤ fuel := by simpa using hfuel
    obtain ⟨f, rfl⟩ : ∃ f, fuel = f + 1 := ⟨fuel - 1, by omega⟩
    cases rest with
    | nil =>
      obtain ⟨hapi, hnext⟩ : api url = Except.ok p ∧ p.next = none := hchain
      simp [fetchLoop, hapi, hnext, collectPageIds_acc p.items acc,
        collectPageIds_eq, pageTrackIds]
    | cons q rest2 =>
      have hchain2 := hchain
      unfold pageChain at hchain2
      obtain ⟨hapi, hrest⟩ := hchain2
      cases hnext : p.next with
      | none => rw [hnext] at hrest; exact absurd hrest (by simp)
      | some u =>
        rw [hnext] at hrest
        have step : fetchLoop api (f + 1) (some url) acc =
            fetchLoop api f (some u) (collectPageIds p.items acc) := by
          simp [fetchLoop, hapi, hnext]
        rw [step, ih u (collectPageIds p.items acc) f hrest (by simpa using hfuel)]
        rw [collectPageIds_acc p.items acc, collectPageIds_eq]
        simp [pageTrackIds]

/-- Claim C4: for every finite chain of playlist pages linked by
next-page pointers and ending with none, the enumerator terminates at
the pointerless page and returns the order-preserving concatenation of
each page's non-null track ids, entries lacking a track or an id being
silently omitted. -/
theorem fetch_playlist_tracks_concat :
    ∀ api : String → Except String PlaylistTracksResponse, ∀ pid : String,
    ∀ pages : List PlaylistTracksResponse, ∀ fuel : Nat,
    pageChain api (playlistTracksUrl pid) pages →
    pages.length ≤ fuel →
    fetchPlaylistTracks api pid fuel =
      some (Except.ok (pages.map pageTrackIds).flatten) := by
  intro api pid pages fuel hchain hfuel
  have := fetchLoop_chain api pages (playlistTracksUrl pid) [] fuel hchain hfuel
  simpa [fetchPlaylistTracks] using this

/-- The three pages of the spec's enumerator example: page1 → page2 →
page3 → none, with one entry lacking its track and one lacking its
id. -/
def wPage1 : PlaylistTracksResponse :=
  { items := [{ track := some { id := some "t1" } }, { track := none }], next := some "u2" }

/-- Second example page. -/
def wPage2 : PlaylistTracksResponse :=
  { items := [{ track := some { id := none } }, { track := some { id := some "t2" } }],
    next := some "u3" }

/-- Third example page, with no next pointer. -/
def wPage3 : PlaylistTracksResponse :=
  { items := [{ track := some { id := some "t3" } }], next := none }

/-- The catalog API serving the three example pages. -/
def wApi : String → Except String PlaylistTracksResponse :=
  fun url =>
    if url = playlistTracksUrl "PL" then Except.ok wPage1
    else if url = "u2" then Except.ok wPage2
    else if url = "u3" then Except.ok wPage3
    else Except.error "bad url"

/-- Witness for C4: the three-page example enumerates to exactly
["t1", "t2", "t3"]. -/
theorem fetch_playlist_tracks_concat_witness :
    fetchPlaylistTracks wApi "PL" 3 = some (Except.ok ["t1", "t2", "t3"]) := by
  have h := fetch_playlist_tracks_concat wApi "PL" [wPage1, wPage2, wPage3] 3
    (by refine ⟨rfl, ?_⟩
        show pageChain wApi "u2" [wPage2, wPage3]
        refine ⟨rfl, ?_⟩
        show pageChain wApi "u3" [wPage3]
        exact ⟨rfl, rfl⟩)
    (by decide)
  simpa using h

/- ## Claim C1 -/

/-- The key-request step emits no progress event. -/
theorem noProg_requestKey :
    ∀ env : Env, ∀ tid : String, ∀ sid fid : Nat,
    ((requestKey env tid sid fid).2).countP Event.isProg = 0 := by
  intro env tid sid fid
  cases h : env.audioKeyRequest sid fid <;>
    simp [requestKey, h, Event.isProg, List.countP_cons, List.countP_nil]

/-- The audio download emits no progress event. -/
theorem noProg_download :
    ∀ env : Env, ∀ tid : String,
    ((downloadTrackAudio env tid).2).countP Event.isProg = 0 := by
  intro env tid
  cases hb : env.base62 tid with
  | none => simp [downloadTrackAudio, hb]
  | some sid =>
    cases ht : env.trackGet sid with
    | error e => simp [downloadTrackAudio, hb, ht]
    | ok track =>
      cases hsel : selectAudioFormat track.files with
      | none => simp [downloadTrackAudio, hb, ht, hsel]
      | some pr =>
        obtain ⟨f, fid⟩ := pr
        cases ho : env.audioFileOpen fid (streamDataRate f) with
        | error e =>
          simp [downloadTrackAudio, hb, ht, hsel, ho, Event.isProg,
            List.countP_cons, List.countP_nil]
        | ok enc =>
          have hk := noProg_requestKey env tid sid fid
          cases htf : env.newTempFile with
          | error e =>
            simp [downloadTrackAudio, hb, ht, hsel, ho, htf, Event.isProg,
              List.countP_cons, List.countP_nil, List.countP_append, hk]
          | ok temp =>
            cases hcp : env.ioCopy (requestKey env tid sid fid).1 enc temp with
            | error e =>
              simp [downloadTrackAudio, hb, ht, hsel, ho, htf, hcp, Event.isProg,
                List.countP_cons, List.countP_nil, List.countP_append, hk]
            | ok v =>
              cases hps : env.persistTemp temp with
              | error e =>
                simp [downloadTrackAudio, hb, ht, hsel, ho, htf, hcp, hps, Event.isProg,
                  List.countP_cons, List.countP_nil, List.countP_append, hk]
              | ok path =>
                simp [downloadTrackAudio, hb, ht, hsel, ho, htf, hcp, hps, Event.isProg,
                  List.countP_cons, List.countP_nil, List.countP_append, hk]

/-- The transcoder invocation emits no progress event. -/
theorem noProg_convert :
    ∀ env : Env, ∀ a d : String, ∀ md : TrackMetadata,
    ((convertToMp3 env a md d).2).countP Event.isProg = 0 := by
  intro env a d md
  cases hc : env.createParents (trackOutputPath md d) with
  | error e => simp [convertToMp3, hc]
  | ok u =>
    cases hf : env.ffmpegStatus a (trackOutputPath md d) with
    | error e =>
      simp [convertToMp3, hc, hf, Event.isProg, List.countP_cons, List.countP_nil]
    | ok status =>
      by_cases hs : status = 0 <;>
        simp [convertToMp3, hc, hf, hs, Event.isProg, List.countP_cons, List.countP_nil]

/-- The tag-write finish step emits no progress event. -/
theorem noProg_finishWrite :
    ∀ env : Env, ∀ path : String, ∀ tag : Id3Tag,
    ((finishWrite env path tag).2).countP Event.isProg = 0 := by
  intro env path tag
  cases hw : env.writeTagToFile path tag <;>
    simp [finishWrite, hw, Event.isProg, List.countP_cons, List.countP_nil]

/-- The tag writer emits no progress event. -/
theorem noProg_writeTags :
    ∀ env : Env, ∀ path tid : String, ∀ md : TrackMetadata,
    ((writeId3Tags env path md tid).2).countP Event.isProg = 0 := by
  intro env path tid md
  cases hy : tagYear md.album.release_date with
  | none => simp [writeId3Tags, hy]
  | some y =>
    cases himg : md.album.images with
    | nil => simp [writeId3Tags, hy, himg, noProg_finishWrite]
    | cons img rest =>
      cases hr : env.httpGetImage img.url with
      | error e =>
        simp [writeId3Tags, hy, himg, hr, Event.isProg, List.countP_cons, List.countP_nil]
      | ok resp =>
        by_cases hst : 200 ≤ resp.status ∧ resp.status ≤ 299
        · cases hb : resp.body with
          | error e =>
            simp [writeId3Tags, hy, himg, hr, hst, hb, Event.isProg,
              List.countP_cons, List.countP_nil]
          | ok bytes =>
            simp [writeId3Tags, hy, himg, hr, hst, hb, Event.isProg,
              List.countP_cons, noProg_finishWrite]
        · simp [writeId3Tags, hy, himg, hr, hst, Event.isProg,
            List.countP_cons, noProg_finishWrite]

/-- One track's pipeline emits no progress event: the progress bar
advances only in the playlist loop. -/
theorem noProg_ripTrack :
    ∀ env : Env, ∀ tid dir : String,
    ((ripTrack env tid dir).2).countP Event.isProg = 0 := by
  intro env tid dir
  cases hmd : env.getTrackMetadata tid with
  | error e => simp [ripTrack, hmd]
  | ok md =>
    by_cases hflag : md.is_playable = some false
    · simp [ripTrack, hmd, hflag, Event.isProg, List.countP_cons, List.countP_nil]
    · have hdl0 := noProg_download env tid
      cases hdlv : downloadTrackAudio env tid with
      | mk r1 ev1 =>
        rw [hdlv] at hdl0
        cases r1 with
        | panic => simp [ripTrack, hmd, hflag, hdlv]; simpa using hdl0
        | diverge => simp [ripTrack, hmd, hflag, hdlv]; simpa using hdl0
        | error e => simp [ripTrack, hmd, hflag, hdlv]; simpa using hdl0
        | ok audio =>
          have hcv0 := noProg_convert env audio dir md
          cases hcvv : convertToMp3 env audio md dir with
          | mk r2 ev2 =>
            rw [hcvv] at hcv0
            cases r2 with
            | panic =>
              simp [ripTrack, hmd, hflag, hdlv, hcvv, List.countP_append]
              refine ⟨by simpa using hdl0, by simpa using hcv0⟩
            | diverge =>
              simp [ripTrack, hmd, hflag, hdlv, hcvv, List.countP_append]
              refine ⟨by simpa using hdl0, by simpa using hcv0⟩
            | error e =>
              simp [ripTrack, hmd, hflag, hdlv, hcvv, List.countP_append]
              refine ⟨by simpa using hdl0, by simpa using hcv0⟩
            | ok mp3 =>
              have htg0 := noProg_writeTags env mp3 tid md
              cases htgv : writeId3Tags env mp3 md tid with
              | mk r3 ev3 =>
                rw [htgv] at htg0
                simp [ripTrack, hmd, hflag, hdlv, hcvv, htgv, List.countP_append]
                refine ⟨by simpa using hdl0, by simpa using hcv0, by simpa using htg0⟩

/-- The per-track loop never produces an error result itself: errors
of single tracks are consumed inside the loop. -/
theorem ripLoop_no_error :
    ∀ ids : List String, ∀ env : Env, ∀ dir e : String,
    (ripLoop env dir ids).1 ≠ RResult.error e := by
  intro ids
  induction ids with
  | nil => intro env dir e h; simp [ripLoop] at h
  | cons tid rest ih =>
    intro env dir e
    cases hrt : ripTrack env tid dir with
    | mk r evs =>
      cases r with
      | panic => simp [ripLoop, hrt]
      | diverge => simp [ripLoop, hrt]; exact ih env dir e
      | error e2 => simp [ripLoop, hrt]; exact ih env dir e
      | ok u => simp [ripLoop, hrt]; exact ih env dir e

/-- Behaviour of the per-track loop when no track panics: the loop
completes successfully, advances the progress bar once per track, and
logs every track failure with the track id and its error. -/
theorem ripLoop_spec :
    ∀ ids : List String, ∀ env : Env, ∀ dir : String,
    (∀ tid ∈ ids, (ripTrack env tid dir).1 ≠ RResult.panic) →
    (ripLoop env dir ids).1 = RResult.ok () ∧
    progressCount (ripLoop env dir ids).2 = ids.length ∧
    (∀ tid ∈ ids, ∀ e : String, (ripTrack env tid dir).1 = RResult.error e →
      Event.logError ("Failed to rip track " ++ tid ++ ": " ++ e) ∈
        (ripLoop env dir ids).2) := by
  intro ids
  induction ids with
  | nil =>
    intro env dir hnp
    refine ⟨rfl, rfl, ?_⟩
    intro tid h
    simp at h
  | cons tid rest ih =>
    intro env dir hnp
    have hnp0 : (ripTrack env tid dir).1 ≠ RResult.panic := hnp tid (by simp)
    have hnpr : ∀ t ∈ rest, (ripTrack env t dir).1 ≠ RResult.panic :=
      fun t ht => hnp t (by simp [ht])
    obtain ⟨ihok, ihcount, ihmem⟩ := ih env dir hnpr
    have hct := noProg_ripTrack env tid dir
    cases hrt : ripTrack env tid dir with
    | mk r evs =>
      rw [hrt] at hct hnp0
      cases r with
      | panic => exact absurd rfl hnp0
      | diverge =>
        refine ⟨by simp [ripLoop, hrt, ihok], ?_, ?_⟩
        · simp only [ripLoop, hrt]
          simp [progressCount, List.countP_append, List.countP_cons, Event.isProg]
          have h1 : evs.countP Event.isProg = 0 := by simpa using hct
          rw [h1] at *
          simp [progressCount] at ihcount
          omega
        · intro t ht e he
          simp only [ripLoop, hrt]
          rcases List.mem_cons.mp ht with h | h
          · subst h; rw [hrt] at he; simp at he
          · have hmm := ihmem t h e he
            simp [List.mem_append, List.mem_cons, hmm]
      | error e2 =>
        refine ⟨by simp [ripLoop, hrt, ihok], ?_, ?_⟩
        · simp only [ripLoop, hrt]
          simp [progressCount, List.countP_append, List.countP_cons, Event.isProg]
          have h1 : evs.countP Event.isProg = 0 := by simpa using hct
          rw [h1] at *
          simp [progressCount] at ihcount
          omega
        · intro t ht e he
          simp only [ripLoop, hrt]
          rcases List.mem_cons.mp ht with h | h
          · subst h
            rw [hrt] at he
            simp at he
            subst he
            simp [List.mem_append]
          · have hmm := ihmem t h e he
            simp [List.mem_append, List.mem_cons, hmm]
      | ok u =>
        refine ⟨by simp [ripLoop, hrt, ihok], ?_, ?_⟩
        · simp only [ripLoop, hrt]
          simp [progressCount, List.countP_append, List.countP_cons, Event.isProg]
          have h1 : evs.countP Event.isProg = 0 := by simpa using hct
          rw [h1] at *
          simp [progressCount] at ihcount
          omega
        · intro t ht e he
          simp only [ripLoop, hrt]
          rcases List.mem_cons.mp ht with h | h
          · subst h; rw [hrt] at he; simp at he
          · have hmm := ihmem t h e he
            simp [List.mem_append, List.mem_cons, hmm]

/-- Claim C1: once URI resolution, directory allocation and
enumeration have succeeded, the run completes successfully whatever
the per-track outcomes are (no track panicking): every track advances
the progress bar, each failing track is logged with its id and error,
and the loop goes on; conversely an erroring run can only stem from
one of the three setup steps, before any track was processed. -/
theorem rip_playlist_track_failure_isolation :
    (∀ env : Env, ∀ ddir uri u dir : String, ∀ fuel : Nat, ∀ ids : List String,
      normalisePlaylistUri uri = Except.ok u →
      env.makeUniqDir (ddir ++ "/" ++ playlistIdOf u) = Except.ok dir →
      fetchPlaylistTracks env.api (playlistIdOf u) fuel = some (Except.ok ids) →
      (∀ tid ∈ ids, (ripTrack env tid dir).1 ≠ RResult.panic) →
      (ripPlaylist env ddir fuel uri).1 = RResult.ok () ∧
      progressCount (ripPlaylist env ddir fuel uri).2 = ids.length ∧
      (∀ tid ∈ ids, ∀ e : String, (ripTrack env tid dir).1 = RResult.error e →
        Event.logError ("Failed to rip track " ++ tid ++ ": " ++ e) ∈
          (ripPlaylist env ddir fuel uri).2)) ∧
    (∀ env : Env, ∀ ddir uri e : String, ∀ fuel : Nat,
      (ripPlaylist env ddir fuel uri).1 = RResult.error e →
      ((∃ e1, normalisePlaylistUri uri = Except.error e1) ∨
       (∃ u e2, normalisePlaylistUri uri = Except.ok u ∧
          env.makeUniqDir (ddir ++ "/" ++ playlistIdOf u) = Except.error e2) ∨
       (∃ u dir e3, normalisePlaylistUri uri = Except.ok u ∧
          env.makeUniqDir (ddir ++ "/" ++ playlistIdOf u) = Except.ok dir ∧
          fetchPlaylistTracks env.api (playlistIdOf u) fuel =
            some (Except.error e3))) ∧
      progressCount (ripPlaylist env ddir fuel uri).2 = 0) := by
  constructor
  · intro env ddir uri u dir fuel ids hn hm hf hnp
    obtain ⟨lok, lcount, lmem⟩ := ripLoop_spec ids env dir hnp
    refine ⟨by simp [ripPlaylist, hn, hm, hf, lok], ?_, ?_⟩
    · simp only [ripPlaylist, hn, hm, hf]
      simpa [progressCount, List.countP_cons, Event.isProg] using lcount
    · intro tid ht e he
      simp only [ripPlaylist, hn, hm, hf]
      simp only [List.mem_cons]
      right
      exact lmem tid ht e he
  · intro env ddir uri e fuel h
    cases hn : normalisePlaylistUri uri with
    | error e1 =>
      have hres : ripPlaylist env ddir fuel uri = (RResult.error e1, []) := by
        simp [ripPlaylist, hn]
      refine ⟨Or.inl ⟨e1, rfl⟩, ?_⟩
      rw [hres]
      rfl
    | ok u =>
      cases hm : env.makeUniqDir (ddir ++ "/" ++ playlistIdOf u) with
      | error e2 =>
        have hres : ripPlaylist env ddir fuel uri = (RResult.error e2, []) := by
          simp [ripPlaylist, hn, hm]
        refine ⟨Or.inr (Or.inl ⟨u, e2, rfl, hm⟩), ?_⟩
        rw [hres]
        rfl
      | ok dir =>
        cases hf : fetchPlaylistTracks env.api (playlistIdOf u) fuel with
        | none => simp [ripPlaylist, hn, hm, hf] at h
        | some res =>
          cases res with
          | error e3 =>
            have hres : ripPlaylist env ddir fuel uri =
                (RResult.error e3,
                  [Event.logInfo ("Ripping " ++ u ++ " to " ++ dir)]) := by
              simp [ripPlaylist, hn, hm, hf]
            refine ⟨Or.inr (Or.inr ⟨u, dir, e3, rfl, hm, hf⟩), ?_⟩
            rw [hres]
            rfl
          | ok ids =>
            rw [show (ripPlaylist env ddir fuel uri).1 = (ripLoop env dir ids).1 by
              simp [ripPlaylist, hn, hm, hf]] at h
            exact absurd h (ripLoop_no_error ids env dir e)

/-- A run fixture: a single playlist page with tracks g1, g2, g3; the
catalog metadata of g2 fails with "boom" while g1 and g3 are skipped
as unplayable (so no audio collaborators are needed). -/
def wEnvIso : Env :=
  { plainEnv with
    api := fun url =>
      if url = playlistTracksUrl "PL" then
        Except.ok
          { items := [{ track := some { id := some "g1" } },
                      { track := some { id := some "g2" } },
                      { track := some { id := some "g3" } }],
            next := none }
      else Except.error "bad url"
    getTrackMetadata := fun tid =>
      if tid = "g2" then Except.error "boom"
      else Except.ok { mdSong with is_playable := some false } }

/-- Witness for C1: on `wEnvIso` the three-track run succeeds although
track g2 fails, the progress bar advances three times, g2's failure is
logged with its id, and a run on a bad reference fails before any
track with zero progress steps. -/
theorem rip_playlist_track_failure_isolation_witness :
    (ripPlaylist wEnvIso "/dl" 1 "spotify:playlist:PL").1 = RResult.ok () ∧
    progressCount (ripPlaylist wEnvIso "/dl" 1 "spotify:playlist:PL").2 = 3 ∧
    Event.logError "Failed to rip track g2: boom" ∈
      (ripPlaylist wEnvIso "/dl" 1 "spotify:playlist:PL").2 ∧
    progressCount (ripPlaylist wEnvIso "/dl" 1 "bad").2 = 0 := by
  have h1 := rip_playlist_track_failure_isolation.1 wEnvIso "/dl" "spotify:playlist:PL"
    "spotify:playlist:PL" "/dl/PL" 1 ["g1", "g2", "g3"] rfl rfl rfl
    (by intro tid ht
        fin_cases ht <;> decide)
  have h2 := rip_playlist_track_failure_isolation.2 wEnvIso "/dl" "bad"
    "Invalid Spotify playlist URI: bad" 1 rfl
  exact ⟨h1.1, h1.2.1, h1.2.2 "g2" (by simp) "boom" rfl, h2.2⟩

/- ## Claim C8 -/

/-- Splitting off a delimiter-free leading block. -/
theorem breakAtAny_free :
    ∀ delims l1 l2 : List Char,
    (∀ c ∈ l1, c ∉ delims) →
    breakAtAny delims (l1 ++ l2) =
      (l1 ++ (breakAtAny delims l2).1, (breakAtAny delims l2).2) := by
  intro delims l1
  induction l1 with
  | nil => intro l2 h; simp
  | cons c cs ih =>
    intro l2 h
    have hc : c ∉ delims := h c (by simp)
    simp [breakAtAny, hc, ih l2 (fun x hx => h x (by simp [hx]))]

/-- The split worker walks over a separator-free leading block,
pushing it onto the accumulator. -/
theorem splitOnCharAux_free :
    ∀ sep : Char, ∀ l1 l2 acc : List Char,
    (∀ c ∈ l1, ¬ c = sep) →
    splitOnCharAux sep (l1 ++ l2) acc = splitOnCharAux sep l2 (l1.reverse ++ acc) := by
  intro sep l1
  induction l1 with
  | nil => intro l2 acc h; simp
  | cons c cs ih =>
    intro l2 acc h
    have hc : ¬ c = sep := h c (by simp)
    rw [List.cons_append]
    rw [show splitOnCharAux sep (c :: (cs ++ l2)) acc =
        splitOnCharAux sep (cs ++ l2) (c :: acc) by simp [splitOnCharAux, hc]]
    rw [ih l2 (c :: acc) (fun x hx => h x (by simp [hx]))]
    congr 1
    simp

/-- Is the id ASCII-alphanumeric?  On such ids (Spotify identifiers
are base62) the WHATWG parsing algorithm performs no rewriting, so the
restricted executable parser and the url crate agree on the web links
of the concrete conjunct. -/
def goodId (id : String) : Bool :=
  id.data.all Char.isAlphanum

/-- Is the optional remainder after the id empty, a query or a
fragment?  This is the `[...]` of
`https://open.spotify.com/playlist/<id>[...]`; such a remainder cannot
affect the first two path segments under either parser. -/
def sepSuffix (suffix : String) : Bool :=
  match suffix.data with
  | [] => true
  | c :: _ => c == '?' || c == '#'

/-- Parsing the hierarchical part of a playlist web link always yields
the host `open.spotify.com` and segments starting with "playlist" and
then exactly the id. -/
theorem parseHier_playlist :
    ∀ idL sufL : List Char,
    (∀ c ∈ idL, ¬ c = '/') →
    (∀ c ∈ idL, c ∉ ['?', '#']) →
    (sufL = [] ∨ (∃ c cs, sufL = c :: cs ∧ (c = '/' ∨ c = '?' ∨ c = '#'))) →
    ∃ restSegs : List String,
    parseHier "https"
        ("open.spotify.com".data ++ ('/' :: ("playlist".data ++ '/' :: (idL ++ sufL)))) =
      some ⟨"https", "open.spotify.com", "playlist" :: String.mk idL :: restSegs⟩ := by
  intro idL sufL hid1 hid2 hsuf
  have hhost : ∀ c ∈ "open.spotify.com".data, c ∉ ['/', '?', '#'] := by decide
  have hb1 : breakAtAny ['/', '?', '#']
      ("open.spotify.com".data ++ ('/' :: ("playlist".data ++ '/' :: (idL ++ sufL)))) =
      ("open.spotify.com".data, '/' :: ("playlist".data ++ '/' :: (idL ++ sufL))) := by
    rw [breakAtAny_free _ _ _ hhost]
    simp [breakAtAny]
  have hplq : ∀ c ∈ "playlist".data, c ∉ ['?', '#'] := by decide
  have hfree1 : ∀ c ∈ ('/' :: ("playlist".data ++ '/' :: idL)), c ∉ ['?', '#'] := by
    intro c hc
    rcases List.mem_cons.mp hc with rfl | hc2
    · decide
    · rcases List.mem_append.mp hc2 with h | h
      · exact hplq c h
      · rcases List.mem_cons.mp h with rfl | h3
        · decide
        · exact hid2 c h3
  have hassoc : ('/' :: ("playlist".data ++ '/' :: (idL ++ sufL))) =
      (('/' :: ("playlist".data ++ '/' :: idL)) ++ sufL) := by
    simp
  have hb2 : breakAtAny ['?', '#'] (('/' :: ("playlist".data ++ '/' :: idL)) ++ sufL) =
      (('/' :: ("playlist".data ++ '/' :: idL)) ++ (breakAtAny ['?', '#'] sufL).1,
       (breakAtAny ['?', '#'] sufL).2) := breakAtAny_free _ _ _ hfree1
  have hcut : (breakAtAny ['?', '#'] sufL).1 = [] ∨
      ∃ t2, (breakAtAny ['?', '#'] sufL).1 = '/' :: t2 := by
    rcases hsuf with rfl | ⟨c, cs, rfl, hc⟩
    · left; simp [breakAtAny]
    · rcases hc with rfl | rfl | rfl
      · right
        exact ⟨(breakAtAny ['?', '#'] cs).1, by simp [breakAtAny]⟩
      · left; simp [breakAtAny]
      · left; simp [breakAtAny]
  have hpl : ∀ c ∈ "playlist".data, ¬ c = '/' := by decide
  have hsegs : ∀ tcs : List Char, (tcs = [] ∨ ∃ t2, tcs = '/' :: t2) →
      ∃ restSegs0 : List (List Char),
      splitOnChar '/' (("playlist".data ++ '/' :: idL) ++ tcs) =
        "playlist".data :: idL :: restSegs0 := by
    intro tcs htcs
    have hstep1 : splitOnChar '/' (("playlist".data ++ '/' :: idL) ++ tcs) =
        "playlist".data :: splitOnCharAux '/' (idL ++ tcs) [] := by
      rw [show (("playlist".data ++ '/' :: idL) ++ tcs) =
          ("playlist".data ++ ('/' :: (idL ++ tcs))) by simp]
      rw [splitOnChar, splitOnCharAux_free _ _ _ _ hpl]
      simp [splitOnCharAux]
    rcases htcs with rfl | ⟨t2, rfl⟩
    · refine ⟨[], ?_⟩
      rw [hstep1, splitOnCharAux_free _ _ _ _ hid1]
      simp [splitOnCharAux]
    · refine ⟨splitOnChar '/' t2, ?_⟩
      rw [hstep1, splitOnCharAux_free _ _ _ _ hid1]
      rw [show splitOnCharAux '/' ('/' :: t2) (idL.reverse ++ []) =
          (idL.reverse ++ []).reverse :: splitOnCharAux '/' t2 [] by simp [splitOnCharAux]]
      simp [splitOnChar]
  obtain ⟨restSegs0, hsegs0⟩ := hsegs (breakAtAny ['?', '#'] sufL).1 hcut
  refine ⟨restSegs0.map String.mk, ?_⟩
  have hX : (breakAtAny ['?', '#'] ('/' :: ("playlist".data ++ '/' :: (idL ++ sufL)))).1
      = '/' :: (("playlist".data ++ '/' :: idL) ++ (breakAtAny ['?', '#'] sufL).1) := by
    rw [hassoc, hb2]
    rfl
  unfold parseHier
  rw [hb1]
  show (if ("open.spotify.com".data : List Char) = [] then none
    else some
      ({ scheme := "https"
         host := String.mk "open.spotify.com".data
         pathSegments :=
           List.map String.mk
             (if ((breakAtAny ['?', '#']
                  ('/' :: ("playlist".data ++ '/' :: (idL ++ sufL)))).1).head? = some '/' then
                splitOnChar '/'
                  ((breakAtAny ['?', '#']
                    ('/' :: ("playlist".data ++ '/' :: (idL ++ sufL)))).1).tail
              else [[]]) } : ParsedUrl)) =
    some ({ scheme := "https", host := "open.spotify.com",
            pathSegments := "playlist" :: String.mk idL :: restSegs0.map String.mk } : ParsedUrl)
  rw [if_neg (show ¬("open.spotify.com".data : List Char) = [] by decide)]
  rw [hX]
  rw [List.head?_cons, List.tail_cons]
  rw [if_pos rfl]
  rw [hsegs0]
  rfl

/-- Claim C8: the resolver's exact case analysis, proved relative to
its URL-parsing collaborator (`Url::parse`, abstracted as the `parse`
argument): an input with the canonical leading pattern is returned
unchanged for every parser (idempotence on canonical references); any
input the parser maps to a URL with host `open.spotify.com` and path
segments `"playlist" :: id :: _` — whatever its scheme, which the code
never examines — is rewritten to exactly `spotify:playlist:<id>`; any
non-canonical input whose parse yields no such shape fails with the
invalid-reference error naming the input.  The last conjunct grounds
the spec's concrete `https://open.spotify.com/playlist/<id>[...]`
shape through the executable parser instance, on a domain
(alphanumeric id, query/fragment remainder) where that instance
agrees with the url crate. -/
theorem normalise_playlist_uri_cases :
    (∀ parse : String → Option ParsedUrl, ∀ input : String,
      strHasPre canonPre input = true →
      normalisePlaylistUriWith parse input = Except.ok input) ∧
    (∀ parse : String → Option ParsedUrl, ∀ input : String, ∀ url : ParsedUrl,
      ∀ id : String, ∀ rest : List String,
      strHasPre canonPre input = false →
      parse input = some url →
      url.host = "open.spotify.com" →
      url.pathSegments = "playlist" :: id :: rest →
      normalisePlaylistUriWith parse input = Except.ok ("spotify:playlist:" ++ id)) ∧
    (∀ parse : String → Option ParsedUrl, ∀ input : String,
      strHasPre canonPre input = false →
      webPlaylistId parse input = none →
      normalisePlaylistUriWith parse input = Except.error (invalidUriMsg input)) ∧
    (∀ id suffix : String, goodId id = true → sepSuffix suffix = true →
      normalisePlaylistUri ("https://open.spotify.com/playlist/" ++ id ++ suffix) =
        Except.ok ("spotify:playlist:" ++ id)) := by
  refine ⟨?_, ?_, ?_, ?_⟩
  · intro parse input h
    simp [normalisePlaylistUriWith, h]
  · intro parse input url id rest h hp hh hseg
    simp [normalisePlaylistUriWith, h, hp, hh, hseg]
  · intro parse input h hweb
    cases hu : parse input with
    | none => simp [normalisePlaylistUriWith, h, hu]
    | some url =>
      by_cases hh : url.host = "open.spotify.com"
      · cases hseg : url.pathSegments with
        | nil => simp [normalisePlaylistUriWith, h, hu, hh, hseg]
        | cons s0 t =>
          cases t with
          | nil => simp [normalisePlaylistUriWith, h, hu, hh, hseg]
          | cons s1 t2 =>
            by_cases hs0 : s0 = "playlist"
            · simp only [webPlaylistId] at hweb
              rw [hu] at hweb
              simp [hh, hseg, hs0] at hweb
            · simp [normalisePlaylistUriWith, h, hu, hh, hseg, hs0]
      · simp [normalisePlaylistUriWith, h, hu, hh]
  · intro id suffix hgood hsuf
    have hsufL : suffix.data = [] ∨
        ∃ c cs, suffix.data = c :: cs ∧ (c = '/' ∨ c = '?' ∨ c = '#') := by
      cases hs : suffix.data with
      | nil => exact Or.inl rfl
      | cons c cs =>
        right
        refine ⟨c, cs, rfl, ?_⟩
        have h2 := hsuf
        unfold sepSuffix at h2
        rw [hs] at h2
        have h3 : c = '?' ∨ c = '#' := by simpa using h2
        exact Or.inr h3
    have hgood2 : id.data.all Char.isAlphanum = true := hgood
    have hpt := List.all_eq_true.mp hgood2
    have h1 : ∀ c ∈ id.data, ¬ c = '/' := by
      intro c hc h
      have hcal := hpt c hc
      subst h
      exact absurd hcal (by decide)
    have h23 : ∀ c ∈ id.data, c ∉ ['?', '#'] := by
      intro c hc hmem
      have hcal := hpt c hc
      rcases List.mem_cons.mp hmem with rfl | hmem2
      · exact absurd hcal (by decide)
      · rcases List.mem_cons.mp hmem2 with rfl | h0
        · exact absurd hcal (by decide)
        · simp at h0
    obtain ⟨restSegs, hup⟩ := parseHier_playlist id.data suffix.data h1 h23 hsufL
    have hcanon : strHasPre canonPre
        ("https://open.spotify.com/playlist/" ++ id ++ suffix) = false := rfl
    have hupFull : urlParse ("https://open.spotify.com/playlist/" ++ id ++ suffix) =
        some ⟨"https", "open.spotify.com", "playlist" :: String.mk id.data :: restSegs⟩ := by
      rw [show urlParse ("https://open.spotify.com/playlist/" ++ id ++ suffix) =
          parseHier "https"
            ("open.spotify.com".data ++
              ('/' :: ("playlist".data ++ '/' :: (id.data ++ suffix.data))))
          from rfl]
      exact hup
    unfold normalisePlaylistUri normalisePlaylistUriWith
    rw [hcanon]
    rw [if_neg (show ¬false = true by simp)]
    rw [hupFull]
    rfl

/-- Witness for C8: a canonical reference is returned unchanged; a
concretely parsed playlist URL is rewritten from its second segment;
junk fails with the invalid-reference error naming it; and the spec's
concrete web-link shape with a query resolves canonically. -/
theorem normalise_playlist_uri_cases_witness :
    normalisePlaylistUriWith urlParse "spotify:playlist:37i9abc" =
      Except.ok "spotify:playlist:37i9abc" ∧
    normalisePlaylistUriWith urlParse "https://open.spotify.com/playlist/XYZ?si=1" =
      Except.ok ("spotify:playlist:" ++ "XYZ") ∧
    normalisePlaylistUriWith urlParse "garbage" =
      Except.error "Invalid Spotify playlist URI: garbage" ∧
    normalisePlaylistUri "https://open.spotify.com/playlist/XYZ?si=1" =
      Except.ok "spotify:playlist:XYZ" := by
  refine ⟨normalise_playlist_uri_cases.1 urlParse "spotify:playlist:37i9abc" rfl, ?_, ?_, ?_⟩
  · exact normalise_playlist_uri_cases.2.1 urlParse
      "https://open.spotify.com/playlist/XYZ?si=1"
      ⟨"https", "open.spotify.com", ["playlist", "XYZ"]⟩ "XYZ" [] rfl rfl rfl rfl
  · exact normalise_playlist_uri_cases.2.2.1 urlParse "garbage" rfl rfl
  · exact normalise_playlist_uri_cases.2.2.2 "XYZ" "?si=1" rfl rfl
